import Mathlib

/-!
Shallow embedding of the Babelfish firmware core: the bounded cross-core
event queues, the command mode filter state machine, the keystroke
synthesizer used by the command menu, the dispatch loop, and the CDC
line-coding reset callback, together with theorems about their observable
behaviour.  Sources: src/main.c and src/stdio_nusb/reset_interface.c.
-/

namespace Babelfish

/-- One key state change, as produced by the HID normalizer and consumed by
the host emulators.  Modelled from the spec: the record itself is declared
in babelfish.h, which is not among the sources; spec section 3 gives its
fields (HID usage page, 16-bit keycode, down flag), and main.c constructs
it with exactly these fields. -/
structure KeyboardEvent where
  page : Nat
  keycode : Nat
  down : Bool
deriving DecidableEq

/-- One mouse report.  Modelled from the spec: declared in babelfish.h
(not among the sources); spec section 3 gives per-axis relative deltas and
a button bitmask.  Only the record identity matters for the theorems. -/
structure MouseEvent where
  dx : Int
  dy : Int
  wheel : Int
  buttons : Nat
deriving DecidableEq

/-! HID keyboard usage codes, as defined by the TinyUSB header tusb.h that
main.c includes; these are the standard USB HID usage table values for the
keyboard page (the spec glossary confirms usage 0x2C = space).  Note that
the usage table orders the digit keys 1..9 and then 0, so HID_KEY_0 is the
largest digit code, not the smallest. -/

def HID_KEY_A : Nat := 0x04
def HID_KEY_H : Nat := 0x0B
def HID_KEY_Z : Nat := 0x1D
def HID_KEY_1 : Nat := 0x1E
def HID_KEY_9 : Nat := 0x26
def HID_KEY_0 : Nat := 0x27
def HID_KEY_ENTER : Nat := 0x28
def HID_KEY_SPACE : Nat := 0x2C
def HID_KEY_EQUAL : Nat := 0x2E

/-- Hold threshold in milliseconds, CMD_MS_HOLD in main.c. -/
def CMD_MS_HOLD : Nat := 500

/-- The command key, CMD_KEY in main.c: the equals key. -/
def CMD_KEY : Nat := HID_KEY_EQUAL

/-- Translation of hid_to_cmd_ascii from main.c.  The C returns a char;
unmapped keys yield the NUL character. -/
def hid_to_cmd_ascii (hid : Nat) : Char :=
  if HID_KEY_0 ≤ hid ∧ hid ≤ HID_KEY_9 then
    Char.ofNat (Char.toNat '0' + (hid - HID_KEY_0))
  else if HID_KEY_A ≤ hid ∧ hid ≤ HID_KEY_Z then
    Char.ofNat (Char.toNat 'a' + (hid - HID_KEY_A))
  else if hid = HID_KEY_ENTER then '\n'
  else if hid = HID_KEY_SPACE then ' '
  else Char.ofNat 0

/-- Translation of cmd_ascii_to_hid from main.c. -/
def cmd_ascii_to_hid (ch : Char) : Nat :=
  if Char.toNat '0' ≤ ch.toNat ∧ ch.toNat ≤ Char.toNat '9' then
    HID_KEY_0 + (ch.toNat - Char.toNat '0')
  else if Char.toNat 'a' ≤ ch.toNat ∧ ch.toNat ≤ Char.toNat 'z' then
    HID_KEY_A + (ch.toNat - Char.toNat 'a')
  else if ch = '\n' then HID_KEY_ENTER
  else if ch = ' ' then HID_KEY_SPACE
  else 0

/-- Translation of the send_kbd_string loop body from main.c, over the
list of characters of the string: each character with a HID mapping is
sent to the host as a page-0 DOWN event followed by the matching UP event;
characters whose mapping is 0 are skipped.  The returned list is the
sequence of host kbd_event calls (the sleep_ms pacing carries no data and
is not modelled). -/
def send_kbd_chars : List Char → List KeyboardEvent
  | [] => []
  | c :: rest =>
    let hid := cmd_ascii_to_hid c
    if hid = 0 then send_kbd_chars rest
    else ⟨0, hid, true⟩ :: ⟨0, hid, false⟩ :: send_kbd_chars rest

/-- Translation of send_kbd_string from main.c. -/
def send_kbd_string (str : String) : List KeyboardEvent :=
  send_kbd_chars str.toList

/-- Names of the host table entries in main.c, in declaration order.
Modelled from the spec: the HOST_ENTRY definition lives in babelfish.h
(not among the sources); spec sections 3 and 6 fix the three variants Sun,
ADB, Apollo in this order.  Only the length of the list and the identity
of each name matter for the theorems. -/
def hosts : List String := ["sun", "adb", "apollo"]

/-- The hard-coded active host index from main.c (a TODO notes it should
eventually come from flash). -/
def g_current_host_index : Nat := 2

/-- Translation of the host-list printing loop of the h command in
cmd_process_event: for each host entry, the marker, the decimal index, a
space, the name and a newline are each passed to send_kbd_string. -/
def host_list_lines : Nat → List String → List KeyboardEvent
  | _, [] => []
  | i, name :: rest =>
    send_kbd_string (if g_current_host_index = i then "* " else "  ") ++
    send_kbd_string (toString i) ++
    send_kbd_string " " ++
    send_kbd_string name ++
    send_kbd_string "\n" ++
    host_list_lines (i + 1) rest

/-- The full sequence of synthesized host calls made by the h command:
the Hosts header line followed by one line per host table entry. -/
def hostsListEvents : List KeyboardEvent :=
  send_kbd_string "Hosts\n" ++ host_list_lines 0 hosts

/-- Translation of the switch on hid_to_cmd_ascii in the command-mode
branch of cmd_process_event: the h command prints the host list, every
other character falls to the default branch and does nothing. -/
def cmd_dispatch (c : Char) : List KeyboardEvent :=
  if c = 'h' then hostsListEvents else []

/-- The command mode filter state: the three globals s_cmd_saved_ev,
s_cmd_down_stamp and s_in_cmd of main.c.  A down_stamp of 0 means no
saved stamp (the code uses 0 as the sentinel). -/
structure CmdState where
  saved_ev : KeyboardEvent
  down_stamp : Nat
  in_cmd : Bool
deriving DecidableEq

/-- Unsigned 32-bit subtraction, as performed on the uint32_t millisecond
timestamps in cmd_process_event. -/
def usub32 (a b : Nat) : Nat :=
  (a % 2 ^ 32 + 2 ^ 32 - b % 2 ^ 32) % 2 ^ 32

/-- The part of cmd_process_event after the initial stamp check: the
in-command handling, the arming branch, and the final fall-through.  The
C function is declared bool but the fall-through path reaches the closing
brace without a return statement, so the result there is unspecified;
this is modelled by returning none, while every explicit return r is
modelled as some r.  The second component is the list of kbd_event calls
made on the host, the third the updated filter state. -/
def cmd_event_after_hold_check (s1 : CmdState) (now_ms : Nat) (ev : KeyboardEvent) :
    Option Bool × List KeyboardEvent × CmdState :=
  if s1.in_cmd then
    if ev.keycode = CMD_KEY ∧ ev.down = false then
      (some true, [], { s1 with down_stamp := 0, in_cmd := false })
    else if ev.down then
      (some true, cmd_dispatch (hid_to_cmd_ascii ev.keycode), s1)
    else
      (some true, [], s1)
  else if ev.keycode = CMD_KEY ∧ ev.down = true then
    (some true, [], { s1 with down_stamp := now_ms, saved_ev := ev })
  else
    (none, [], s1)

/-- Translation of cmd_process_event from main.c.  now_ms is the value
to_ms_since_boot returns during this call (a uint32_t). -/
def cmd_process_event (s : CmdState) (now_ms : Nat) (ev : KeyboardEvent) :
    Option Bool × List KeyboardEvent × CmdState :=
  if s.down_stamp ≠ 0 then
    if usub32 now_ms s.down_stamp < CMD_MS_HOLD then
      (some false, [s.saved_ev], { s with down_stamp := 0 })
    else
      cmd_event_after_hold_check { s with in_cmd := true } now_ms ev
  else
    cmd_event_after_hold_check s now_ms ev

/-- One keyboard event of the dispatch loop body in mainloop: the event is
run through cmd_process_event, and forwarded to the host exactly when the
filter did not consume it.  In the unspecified fall-through case the C
program branches on an indeterminate bool; g supplies that value so that
theorems can quantify over it. -/
def dispatch_kbd_event (s : CmdState) (now : Nat) (g : Bool) (ev : KeyboardEvent) :
    List KeyboardEvent × CmdState :=
  let r := cmd_process_event s now ev
  if r.1.getD g then (r.2.1, r.2.2) else (r.2.1 ++ [ev], r.2.2)

/-- The keyboard half of one mainloop iteration: the drained batch is
processed front to back; each entry carries the to_ms_since_boot value
observed while it is processed and the indeterminate bool of the
fall-through case.  Returns the host kbd_event call sequence and the
final filter state. -/
def kbd_phase : CmdState → List (Nat × Bool × KeyboardEvent) → List KeyboardEvent × CmdState
  | s, [] => ([], s)
  | s, x :: rest =>
    let r1 := dispatch_kbd_event s x.1 x.2.1 x.2.2
    let r2 := kbd_phase r1.2 rest
    (r1.1 ++ r2.1, r2.2)

/-- A call made on the active host emulator during dispatch. -/
inductive HostCall where
  | kbd (ev : KeyboardEvent)
  | mouse (ev : MouseEvent)
deriving DecidableEq

/-- The mouse half of one mainloop iteration: each drained mouse event is
forwarded to the host in batch order. -/
def mouse_phase : List MouseEvent → List HostCall
  | [] => []
  | m :: rest => HostCall.mouse m :: mouse_phase rest

/-- One iteration of mainloop after the two drains: first the keyboard
loop runs over the whole keyboard batch, then the mouse loop runs over
the whole mouse batch.  Returns the host call trace of the iteration and
the final filter state. -/
def mainloop_iteration (s : CmdState) (kbd : List (Nat × Bool × KeyboardEvent))
    (mice : List MouseEvent) : List HostCall × CmdState :=
  let rk := kbd_phase s kbd
  (rk.1.map HostCall.kbd ++ mouse_phase mice, rk.2)

/-- Capacity of each event queue.  Modelled from the spec: the constant is
defined in babelfish.h (not among the sources); spec sections 3 and 8 give
16.  Every queue theorem below holds for any value of this constant. -/
def MAX_QUEUED_EVENTS : Nat := 16

/-- Translation of the enqueue functions of main.c: under the mutex, the
event is appended when the count is below capacity and silently dropped
otherwise.  The queue is the list of stored events in arrival order. -/
def enqueue_event {α : Type} (q : List α) (e : α) : List α :=
  if q.length < MAX_QUEUED_EVENTS then q ++ [e] else q

/-- enqueue_kbd_event from main.c. -/
def enqueue_kbd_event (q : List KeyboardEvent) (e : KeyboardEvent) : List KeyboardEvent :=
  enqueue_event q e

/-- enqueue_mouse_event from main.c. -/
def enqueue_mouse_event (q : List MouseEvent) (e : MouseEvent) : List MouseEvent :=
  enqueue_event q e

/-- Translation of the drain functions of main.c: under the mutex, the
whole queue contents are copied out and the stored count is reset to
zero.  Returns the drained batch and the emptied queue. -/
def get_queued_events {α : Type} (q : List α) : List α × List α :=
  (q, [])

/-- get_queued_kbd_events from main.c. -/
def get_queued_kbd_events (q : List KeyboardEvent) : List KeyboardEvent × List KeyboardEvent :=
  get_queued_events q

/-- get_queued_mouse_events from main.c. -/
def get_queued_mouse_events (q : List MouseEvent) : List MouseEvent × List MouseEvent :=
  get_queued_events q

/-- CDC line coding record, cdc_line_coding_t of TinyUSB: only the bit
rate is inspected by the callback under scrutiny. -/
structure cdc_line_coding_t where
  bit_rate : Nat
  stop_bits : Nat
  parity : Nat
  data_bits : Nat
deriving DecidableEq

/-- An externally visible board support action requested by the CDC
callback. -/
inductive BoardAction where
  | reset_usb_boot (gpio_mask : Nat) (disable_mask : Nat)
deriving DecidableEq

/-- The magic baud rate from reset_interface.c; the surrounding ifndef
defaults apply since the sources define no override. -/
def PICO_STDIO_USB_RESET_MAGIC_BAUD_RATE : Nat := 1200

/-- Translation of tud_cdc_line_coding_cb from reset_interface.c: when the
requested bit rate equals the magic baud rate the callback requests
reset_usb_boot with a zero activity-LED mask (the activity-LED option is
not defined in the sources) and a zero interface disable mask; otherwise
it performs no action.  The result is the list of board actions taken. -/
def tud_cdc_line_coding_cb (_itf : Nat) (p_line_coding : cdc_line_coding_t) :
    List BoardAction :=
  if p_line_coding.bit_rate = PICO_STDIO_USB_RESET_MAGIC_BAUD_RATE then
    [BoardAction.reset_usb_boot 0 0]
  else
    []

/-- The per-host line of the host-list printout as the spec words it:
mark, decimal index, a space, the host name, a newline, with the active
host marked by an asterisk line head.  Stated from the spec text (spec
section 4.D) for comparison with the source-derived trace. -/
def spec_host_line (i : Nat) : String :=
  (if g_current_host_index = i then "* " else "  ") ++
    toString i ++ " " ++ hosts.getD i "" ++ "\n"

/-! ### Helper lemmas -/

lemma foldl_enqueue_eq_take {α : Type} (es : List α) :
    ∀ q : List α, q.length ≤ MAX_QUEUED_EVENTS →
      es.foldl enqueue_event q = q ++ es.take (MAX_QUEUED_EVENTS - q.length) := by
  induction es with
  | nil => intro q _; simp
  | cons e rest ih =>
    intro q hq
    rw [List.foldl_cons]
    by_cases h : q.length < MAX_QUEUED_EVENTS
    · have he : enqueue_event q e = q ++ [e] := by simp [enqueue_event, h]
      have hlen : (q ++ [e]).length ≤ MAX_QUEUED_EVENTS := by
        simp only [List.length_append, List.length_cons, List.length_nil]
        omega
      rw [he, ih (q ++ [e]) hlen]
      have hsub : MAX_QUEUED_EVENTS - q.length =
          (MAX_QUEUED_EVENTS - (q ++ [e]).length) + 1 := by
        simp only [List.length_append, List.length_cons, List.length_nil]
        omega
      rw [hsub]
      simp [List.take_succ_cons]
    · have he : enqueue_event q e = q := by simp [enqueue_event, h]
      have hlen : MAX_QUEUED_EVENTS - q.length = 0 := by omega
      rw [he, ih q hq, hlen]
      simp

lemma send_kbd_chars_page0 (l : List Char) : ∀ e ∈ send_kbd_chars l, e.page = 0 := by
  induction l with
  | nil => simp [send_kbd_chars]
  | cons c rest ih =>
    intro e he
    simp only [send_kbd_chars] at he
    split at he
    · exact ih e he
    · rcases List.mem_cons.mp he with h1 | h2
      · rw [h1]
      · rcases List.mem_cons.mp h2 with h3 | h4
        · rw [h3]
        · exact ih e h4

lemma send_kbd_chars_skip (l : List Char) :
    send_kbd_chars (l.filter (fun ch => cmd_ascii_to_hid ch ≠ 0)) = send_kbd_chars l := by
  induction l with
  | nil => rfl
  | cons c rest ih =>
    by_cases h : cmd_ascii_to_hid c = 0
    · have : (List.filter (fun ch => decide (cmd_ascii_to_hid ch ≠ 0)) (c :: rest)) =
          rest.filter (fun ch => decide (cmd_ascii_to_hid ch ≠ 0)) := by
        simp [List.filter_cons, h]
      rw [this, ih]
      simp [send_kbd_chars, h]
    · have : (List.filter (fun ch => decide (cmd_ascii_to_hid ch ≠ 0)) (c :: rest)) =
          c :: rest.filter (fun ch => decide (cmd_ascii_to_hid ch ≠ 0)) := by
        simp [List.filter_cons, h]
      rw [this]
      simp only [send_kbd_chars, ih]

/-! ### Claim theorems -/

/-- C1: for every sequence of enqueue_kbd_event (resp. enqueue_mouse_event)
calls starting from the empty queue, a drain returns exactly the first
min(n, MAX_QUEUED_EVENTS) enqueued events in enqueue order (enqueues
arriving at a full queue are dropped), and a second drain with no
intervening enqueue returns zero events. -/
theorem c1_queue_prefix_drain (ks : List KeyboardEvent) (ms : List MouseEvent) :
    (get_queued_kbd_events (ks.foldl enqueue_kbd_event [])).1 =
      ks.take MAX_QUEUED_EVENTS ∧
    (get_queued_kbd_events (get_queued_kbd_events (ks.foldl enqueue_kbd_event [])).2).1
      = [] ∧
    (get_queued_mouse_events (ms.foldl enqueue_mouse_event [])).1 =
      ms.take MAX_QUEUED_EVENTS ∧
    (get_queued_mouse_events (get_queued_mouse_events (ms.foldl enqueue_mouse_event [])).2).1
      = [] := by
  have hk : ks.foldl enqueue_event [] = ks.take MAX_QUEUED_EVENTS := by
    simpa using foldl_enqueue_eq_take ks [] (by simp)
  have hm : ms.foldl enqueue_event [] = ms.take MAX_QUEUED_EVENTS := by
    simpa using foldl_enqueue_eq_take ms [] (by simp)
  exact ⟨hk, rfl, hm, rfl⟩

/-- C1 witness: three keyboard events and two mouse events enqueued into
empty queues drain back in order, and the second drains are empty. -/
theorem c1_queue_prefix_drain_witness :
    (get_queued_kbd_events
        ([(⟨7, 4, true⟩ : KeyboardEvent), ⟨7, 4, false⟩, ⟨7, 5, true⟩].foldl
          enqueue_kbd_event [])).1 =
      [(⟨7, 4, true⟩ : KeyboardEvent), ⟨7, 4, false⟩, ⟨7, 5, true⟩].take
        MAX_QUEUED_EVENTS ∧
    (get_queued_kbd_events
        (get_queued_kbd_events
          ([(⟨7, 4, true⟩ : KeyboardEvent), ⟨7, 4, false⟩, ⟨7, 5, true⟩].foldl
            enqueue_kbd_event [])).2).1 = [] ∧
    (get_queued_mouse_events
        ([(⟨1, 2, 0, 0⟩ : MouseEvent), ⟨0, 0, 1, 1⟩].foldl enqueue_mouse_event [])).1 =
      [(⟨1, 2, 0, 0⟩ : MouseEvent), ⟨0, 0, 1, 1⟩].take MAX_QUEUED_EVENTS ∧
    (get_queued_mouse_events
        (get_queued_mouse_events
          ([(⟨1, 2, 0, 0⟩ : MouseEvent), ⟨0, 0, 1, 1⟩].foldl enqueue_mouse_event [])).2).1
      = [] :=
  c1_queue_prefix_drain [⟨7, 4, true⟩, ⟨7, 4, false⟩, ⟨7, 5, true⟩]
    [⟨1, 2, 0, 0⟩, ⟨0, 0, 1, 1⟩]

/-- C4: the digit half of the claimed round trip fails on the code.  In
the USB HID usage table the digit keys are ordered 1..9 then 0, so
HID_KEY_0 is greater than HID_KEY_9 and the digit guard of
hid_to_cmd_ascii can never hold: every digit key maps to NUL, the round
trip through cmd_ascii_to_hid returns 0 instead of the key, and in the
other direction cmd_ascii_to_hid sends the character 1 to HID_KEY_ENTER.
The letter, space and enter part of the round trip does hold. -/
theorem c4_digit_roundtrip_fails :
    ¬ HID_KEY_0 ≤ HID_KEY_9 ∧
    hid_to_cmd_ascii HID_KEY_1 = Char.ofNat 0 ∧
    hid_to_cmd_ascii HID_KEY_0 = Char.ofNat 0 ∧
    cmd_ascii_to_hid (hid_to_cmd_ascii HID_KEY_1) = 0 ∧
    HID_KEY_1 ≠ 0 ∧
    cmd_ascii_to_hid '1' = HID_KEY_ENTER ∧
    HID_KEY_ENTER ≠ HID_KEY_1 ∧
    (∀ k ∈ [HID_KEY_SPACE, HID_KEY_ENTER] ++ (List.range 26).map (· + HID_KEY_A),
      cmd_ascii_to_hid (hid_to_cmd_ascii k) = k) := by
  refine ⟨by decide, by decide, by decide, by decide, by decide, by decide, by decide, ?_⟩
  decide

/-- C9: the CDC line-coding callback requests the jump into the ROM
bootloader exactly when the requested bit rate is 1200, and performs no
action for every other bit rate. -/
theorem c9_magic_baud_reset (itf : Nat) (p : cdc_line_coding_t) :
    (tud_cdc_line_coding_cb itf p = [BoardAction.reset_usb_boot 0 0] ↔
      p.bit_rate = 1200) ∧
    (tud_cdc_line_coding_cb itf p = [] ↔ p.bit_rate ≠ 1200) := by
  by_cases h : p.bit_rate = 1200 <;>
    simp [tud_cdc_line_coding_cb, PICO_STDIO_USB_RESET_MAGIC_BAUD_RATE, h]

/-- C9 witness: at bit rate 1200 the callback requests reset_usb_boot,
and at bit rate 115200 it does nothing. -/
theorem c9_magic_baud_reset_witness :
    (tud_cdc_line_coding_cb 0 ⟨1200, 0, 0, 8⟩ = [BoardAction.reset_usb_boot 0 0] ↔
      (1200 : Nat) = 1200) ∧
    (tud_cdc_line_coding_cb 0 ⟨1200, 0, 0, 8⟩ = [] ↔ (1200 : Nat) ≠ 1200) :=
  c9_magic_baud_reset 0 ⟨1200, 0, 0, 8⟩

/-- C10: every event synthesized by send_kbd_string carries page 0, a
single character is typed as a page-0 DOWN followed by the matching UP
when it has a HID mapping and produces no events at all when
cmd_ascii_to_hid returns 0, and dropping the unmapped characters of a
string leaves its synthesized event sequence unchanged. -/
theorem c10_synthesized_events_page_zero (str : String) (c : Char) :
    (∀ e ∈ send_kbd_string str, e.page = 0) ∧
    send_kbd_chars [c] =
      (if cmd_ascii_to_hid c = 0 then []
       else [⟨0, cmd_ascii_to_hid c, true⟩, ⟨0, cmd_ascii_to_hid c, false⟩]) ∧
    send_kbd_chars (str.toList.filter (fun ch => cmd_ascii_to_hid ch ≠ 0)) =
      send_kbd_string str := by
  refine ⟨send_kbd_chars_page0 str.toList, ?_, send_kbd_chars_skip str.toList⟩
  by_cases h : cmd_ascii_to_hid c = 0 <;> simp [send_kbd_chars, h]

/-- C10 witness: the string with an a, an asterisk and a space synthesizes
page-0 events only, the asterisk alone produces no events, and filtering
it out changes nothing. -/
theorem c10_synthesized_events_page_zero_witness :
    (∀ e ∈ send_kbd_string "a* ", e.page = 0) ∧
    send_kbd_chars ['*'] =
      (if cmd_ascii_to_hid '*' = 0 then []
       else [⟨0, cmd_ascii_to_hid '*', true⟩, ⟨0, cmd_ascii_to_hid '*', false⟩]) ∧
    send_kbd_chars ("a* ".toList.filter (fun ch => cmd_ascii_to_hid ch ≠ 0)) =
      send_kbd_string "a* " :=
  c10_synthesized_events_page_zero "a* " '*'

/-- C2: when the filter is Armed (a non-zero stamp is saved, not in
command mode) and the next event arrives less than CMD_MS_HOLD
milliseconds after the stamp, cmd_process_event first replays the saved
command-key DOWN to the host, clears the stamp (returning to Idle) and
reports the event as not consumed, so the dispatch step delivers the
saved DOWN followed by the current event, in that order. -/
theorem c2_short_hold_replay (s : CmdState) (now : Nat) (g : Bool) (ev : KeyboardEvent)
    (harmed : s.down_stamp ≠ 0) (hidle : s.in_cmd = false)
    (hshort : usub32 now s.down_stamp < CMD_MS_HOLD) :
    cmd_process_event s now ev = (some false, [s.saved_ev], { s with down_stamp := 0 }) ∧
    dispatch_kbd_event s now g ev = ([s.saved_ev, ev], { s with down_stamp := 0 }) ∧
    ({ s with down_stamp := 0 } : CmdState).in_cmd = false := by
  have h1 : cmd_process_event s now ev =
      (some false, [s.saved_ev], { s with down_stamp := 0 }) := by
    simp [cmd_process_event, harmed, hshort]
  refine ⟨h1, ?_, hidle⟩
  simp [dispatch_kbd_event, h1]

/-- C2 witness: with the command-key DOWN saved at millisecond 1000 and
the next event arriving at millisecond 1200, the host receives the saved
DOWN and then the new event. -/
theorem c2_short_hold_replay_witness :
    cmd_process_event ⟨⟨7, 0x2E, true⟩, 1000, false⟩ 1200 ⟨7, 4, true⟩ =
      (some false, [(⟨7, 0x2E, true⟩ : KeyboardEvent)], ⟨⟨7, 0x2E, true⟩, 0, false⟩) ∧
    dispatch_kbd_event ⟨⟨7, 0x2E, true⟩, 1000, false⟩ 1200 true ⟨7, 4, true⟩ =
      ([(⟨7, 0x2E, true⟩ : KeyboardEvent), ⟨7, 4, true⟩], ⟨⟨7, 0x2E, true⟩, 0, false⟩) ∧
    ((⟨⟨7, 0x2E, true⟩, 0, false⟩ : CmdState)).in_cmd = false :=
  c2_short_hold_replay ⟨⟨7, 0x2E, true⟩, 1000, false⟩ 1200 true ⟨7, 4, true⟩
    (by decide) rfl (by decide)

/-- C6: in the Idle state, an event that is not a command-key press takes
the path of cmd_process_event on which control reaches the end of the
function without a return statement: the C return value is unspecified
(undefined behavior), modelled here as none; no host call is made and the
state is unchanged.  The claim that the function returns false on this
path is therefore not established by the source. -/
theorem c6_idle_fallthrough_unspecified (s : CmdState) (now : Nat) (ev : KeyboardEvent)
    (hstamp : s.down_stamp = 0) (hin : s.in_cmd = false)
    (hnotarm : ¬(ev.keycode = CMD_KEY ∧ ev.down = true)) :
    cmd_process_event s now ev = (none, [], s) := by
  simp [cmd_process_event, hstamp, cmd_event_after_hold_check, hin, hnotarm]

/-- C6 witness: an A-key DOWN processed in the Idle state reaches the
unspecified fall-through. -/
theorem c6_idle_fallthrough_unspecified_witness :
    cmd_process_event ⟨⟨0, 0, false⟩, 0, false⟩ 42 ⟨7, 4, true⟩ =
      (none, [], ⟨⟨0, 0, false⟩, 0, false⟩) :=
  c6_idle_fallthrough_unspecified ⟨⟨0, 0, false⟩, 0, false⟩ 42 ⟨7, 4, true⟩
    rfl rfl (by decide)

/-- C8: processing a command-key DOWN in Idle arms the filter without
entering command mode, and from any state outside command mode the only
way an event can leave the filter in command mode is to arrive with a
non-zero saved stamp at least CMD_MS_HOLD milliseconds old.  Transitions
happen only inside cmd_process_event, so with no further keyboard event
the filter stays Armed regardless of how long the key is held. -/
theorem c8_event_driven_arming (s : CmdState) (t0 now p : Nat) (ev : KeyboardEvent)
    (hin : s.in_cmd = false) :
    (s.down_stamp = 0 →
      cmd_process_event s t0 ⟨p, CMD_KEY, true⟩ =
        (some true, [], (⟨⟨p, CMD_KEY, true⟩, t0, s.in_cmd⟩ : CmdState)) ∧
      ((⟨⟨p, CMD_KEY, true⟩, t0, s.in_cmd⟩ : CmdState)).in_cmd = false) ∧
    ((cmd_process_event s now ev).2.2.in_cmd = true →
      s.down_stamp ≠ 0 ∧ CMD_MS_HOLD ≤ usub32 now s.down_stamp) := by
  constructor
  · intro hz
    refine ⟨?_, hin⟩
    simp [cmd_process_event, hz, cmd_event_after_hold_check, hin, CMD_KEY]
  · intro hcmd
    by_cases hz : s.down_stamp = 0
    · exfalso
      by_cases harm : ev.keycode = CMD_KEY ∧ ev.down = true
      · simp [cmd_process_event, hz, cmd_event_after_hold_check, hin, harm] at hcmd
      · simp [cmd_process_event, hz, cmd_event_after_hold_check, hin, harm] at hcmd
    · by_cases hshort : usub32 now s.down_stamp < CMD_MS_HOLD
      · exfalso
        simp [cmd_process_event, hz, hshort] at hcmd
        exact absurd (hin ▸ hcmd) (by simp)
      · exact ⟨hz, by omega⟩

/-- C8 witness: arming at millisecond 100 leaves command mode off, and an
event at millisecond 700 can only have switched command mode on because
the stamp was 600 milliseconds old. -/
theorem c8_event_driven_arming_witness :
    ((⟨⟨0, 0, false⟩, 0, false⟩ : CmdState).down_stamp = 0 →
      cmd_process_event ⟨⟨0, 0, false⟩, 0, false⟩ 100 ⟨7, CMD_KEY, true⟩ =
        (some true, [],
          (⟨⟨7, CMD_KEY, true⟩, 100, (⟨⟨0, 0, false⟩, 0, false⟩ : CmdState).in_cmd⟩ :
            CmdState)) ∧
      ((⟨⟨7, CMD_KEY, true⟩, 100, (⟨⟨0, 0, false⟩, 0, false⟩ : CmdState).in_cmd⟩ :
          CmdState)).in_cmd = false) ∧
    ((cmd_process_event ⟨⟨7, CMD_KEY, true⟩, 100, false⟩ 700 ⟨7, 4, true⟩).2.2.in_cmd
        = true →
      (⟨⟨7, CMD_KEY, true⟩, 100, false⟩ : CmdState).down_stamp ≠ 0 ∧
      CMD_MS_HOLD ≤ usub32 700 (⟨⟨7, CMD_KEY, true⟩, 100, false⟩ : CmdState).down_stamp) :=
  ⟨(c8_event_driven_arming ⟨⟨0, 0, false⟩, 0, false⟩ 100 700 7 ⟨7, 4, true⟩ rfl).1,
   (c8_event_driven_arming ⟨⟨7, CMD_KEY, true⟩, 100, false⟩ 100 700 7 ⟨7, 4, true⟩ rfl).2⟩

lemma mouse_phase_eq_map (mice : List MouseEvent) :
    mouse_phase mice = mice.map HostCall.mouse := by
  induction mice with
  | nil => rfl
  | cons m rest ih => simp [mouse_phase, ih]

/-- C5: dispatching the h command in command mode consumes the event and
synthesizes the host list through the kbd_event path, leaving the filter
state unchanged; the synthesized trace is exactly the typing of the
header line followed by one line per host in the format mark, decimal
index, space, name, newline, with the active host marked by an asterisk;
and every character with a HID mapping is typed as a page-0 DOWN
followed by the matching UP (hostsListEvents is built from
send_kbd_string, whose per-character DOWN/UP shape is fixed by the C10
theorem). -/
theorem c5_hosts_menu (s : CmdState) (now : Nat) (ev : KeyboardEvent)
    (hact : s.in_cmd = true)
    (hlate : s.down_stamp = 0 ∨ CMD_MS_HOLD ≤ usub32 now s.down_stamp)
    (hdown : ev.down = true)
    (hh : hid_to_cmd_ascii ev.keycode = 'h') :
    cmd_process_event s now ev = (some true, hostsListEvents, s) ∧
    hostsListEvents =
      send_kbd_string
        ("Hosts\n" ++ String.join ((List.range hosts.length).map spec_host_line)) ∧
    spec_host_line g_current_host_index =
      "* " ++ toString g_current_host_index ++ " " ++
        hosts.getD g_current_host_index "" ++ "\n" ∧
    (∀ i ∈ List.range hosts.length, i ≠ g_current_host_index →
      spec_host_line i = "  " ++ toString i ++ " " ++ hosts.getD i "" ++ "\n") ∧
    (∀ e ∈ hostsListEvents, e.page = 0) := by
  obtain ⟨sv, st, ic⟩ := s
  simp only [CmdState.in_cmd] at hact
  subst hact
  refine ⟨?_, by decide, by decide, by decide, by decide⟩
  by_cases hz : st = 0
  · subst hz
    simp [cmd_process_event, cmd_event_after_hold_check, hdown, hh, cmd_dispatch]
  · have hns : ¬ usub32 now st < CMD_MS_HOLD := by
      rcases hlate with h | h
      · simp only [CmdState.down_stamp] at h
        exact absurd h hz
      · simp only [CmdState.down_stamp] at h
        omega
    simp [cmd_process_event, hz, hns, cmd_event_after_hold_check, hdown, hh, cmd_dispatch]

/-- C5 witness: an h DOWN arriving 600 milliseconds into an active
command session synthesizes the host list. -/
theorem c5_hosts_menu_witness :
    cmd_process_event ⟨⟨7, CMD_KEY, true⟩, 100, true⟩ 700 ⟨7, HID_KEY_H, true⟩ =
      (some true, hostsListEvents, ⟨⟨7, CMD_KEY, true⟩, 100, true⟩) ∧
    hostsListEvents =
      send_kbd_string
        ("Hosts\n" ++ String.join ((List.range hosts.length).map spec_host_line)) ∧
    spec_host_line g_current_host_index =
      "* " ++ toString g_current_host_index ++ " " ++
        hosts.getD g_current_host_index "" ++ "\n" ∧
    (∀ i ∈ List.range hosts.length, i ≠ g_current_host_index →
      spec_host_line i = "  " ++ toString i ++ " " ++ hosts.getD i "" ++ "\n") ∧
    (∀ e ∈ hostsListEvents, e.page = 0) :=
  c5_hosts_menu ⟨⟨7, CMD_KEY, true⟩, 100, true⟩ 700 ⟨7, HID_KEY_H, true⟩
    rfl (Or.inr (by decide)) rfl (by decide)

/-- C7: in one dispatch-loop iteration the host call trace is the
keyboard phase of the whole keyboard batch, processed front to back in
batch order by kbd_phase, followed by the mouse batch forwarded in batch
order; every call of the first segment is a keyboard call, so every
keyboard event of the batch is handled before any mouse event is
forwarded. -/
theorem c7_kbd_phase_before_mouse_phase (s : CmdState)
    (kbd : List (Nat × Bool × KeyboardEvent)) (mice : List MouseEvent) :
    (mainloop_iteration s kbd mice).1 =
      ((kbd_phase s kbd).1.map HostCall.kbd) ++ mice.map HostCall.mouse ∧
    (∀ c ∈ ((kbd_phase s kbd).1.map HostCall.kbd), ∃ e, c = HostCall.kbd e) ∧
    (mainloop_iteration s kbd mice).2 = (kbd_phase s kbd).2 := by
  refine ⟨?_, ?_, rfl⟩
  · simp [mainloop_iteration, mouse_phase_eq_map]
  · intro c hc
    rcases List.mem_map.mp hc with ⟨e, _, rfl⟩
    exact ⟨e, rfl⟩

/-- C7 witness: a batch of one keyboard event and one mouse event yields
the keyboard-derived calls strictly before the mouse call. -/
theorem c7_kbd_phase_before_mouse_phase_witness :
    (mainloop_iteration ⟨⟨0, 0, false⟩, 0, false⟩ [(700, false, ⟨7, 4, true⟩)]
        [⟨1, 0, 0, 0⟩]).1 =
      ((kbd_phase ⟨⟨0, 0, false⟩, 0, false⟩ [(700, false, ⟨7, 4, true⟩)]).1.map
          HostCall.kbd) ++
        [(⟨1, 0, 0, 0⟩ : MouseEvent)].map HostCall.mouse ∧
    (∀ c ∈ ((kbd_phase ⟨⟨0, 0, false⟩, 0, false⟩ [(700, false, ⟨7, 4, true⟩)]).1.map
        HostCall.kbd), ∃ e, c = HostCall.kbd e) ∧
    (mainloop_iteration ⟨⟨0, 0, false⟩, 0, false⟩ [(700, false, ⟨7, 4, true⟩)]
        [⟨1, 0, 0, 0⟩]).2 =
      (kbd_phase ⟨⟨0, 0, false⟩, 0, false⟩ [(700, false, ⟨7, 4, true⟩)]).2 :=
  c7_kbd_phase_before_mouse_phase ⟨⟨0, 0, false⟩, 0, false⟩
    [(700, false, ⟨7, 4, true⟩)] [⟨1, 0, 0, 0⟩]

lemma cmd_dispatch_page0 (c : Char) : ∀ e ∈ cmd_dispatch c, e.page = 0 := by
  intro e he
  by_cases h : c = 'h'
  · rw [cmd_dispatch, if_pos h] at he
    have hall : ∀ x ∈ hostsListEvents, x.page = 0 := by decide
    exact hall e he
  · rw [cmd_dispatch, if_neg h] at he
    simp at he

lemma cmd_long_step (s : CmdState) (now : Nat) (ev : KeyboardEvent)
    (hstamp : s.down_stamp ≠ 0) (hlong : ¬ usub32 now s.down_stamp < CMD_MS_HOLD) :
    (cmd_process_event s now ev).1 = some true ∧
    (∀ e ∈ (cmd_process_event s now ev).2.1, e.page = 0) ∧
    (cmd_process_event s now ev).2.2 =
      (if ev.keycode = CMD_KEY ∧ ev.down = false
       then (⟨s.saved_ev, 0, false⟩ : CmdState)
       else (⟨s.saved_ev, s.down_stamp, true⟩ : CmdState)) := by
  have hrw : cmd_process_event s now ev =
      cmd_event_after_hold_check ⟨s.saved_ev, s.down_stamp, true⟩ now ev := by
    unfold cmd_process_event
    rw [if_pos hstamp, if_neg hlong]
  rw [hrw]
  by_cases hup : ev.keycode = CMD_KEY ∧ ev.down = false
  · have hred : cmd_event_after_hold_check ⟨s.saved_ev, s.down_stamp, true⟩ now ev =
        (some true, [], (⟨s.saved_ev, 0, false⟩ : CmdState)) := by
      simp [cmd_event_after_hold_check, hup]
    rw [hred]
    exact ⟨rfl, by simp, by simp [hup]⟩
  · by_cases hdn : ev.down = true
    · have hred : cmd_event_after_hold_check ⟨s.saved_ev, s.down_stamp, true⟩ now ev =
          (some true, cmd_dispatch (hid_to_cmd_ascii ev.keycode),
            (⟨s.saved_ev, s.down_stamp, true⟩ : CmdState)) := by
        simp [cmd_event_after_hold_check, hup, hdn]
      rw [hred]
      exact ⟨rfl, cmd_dispatch_page0 _, by simp [hup]⟩
    · have hdn' : ev.down = false := by
        cases h : ev.down
        · rfl
        · exact absurd h hdn
      have hk : ¬ ev.keycode = CMD_KEY := fun h => hup ⟨h, hdn'⟩
      have hred : cmd_event_after_hold_check ⟨s.saved_ev, s.down_stamp, true⟩ now ev =
          (some true, [], (⟨s.saved_ev, s.down_stamp, true⟩ : CmdState)) := by
        simp [cmd_event_after_hold_check, hup, hdn', hk]
      rw [hred]
      exact ⟨rfl, by simp, by simp [hup]⟩

lemma dispatch_consumed (s : CmdState) (now : Nat) (g : Bool) (ev : KeyboardEvent)
    (h : (cmd_process_event s now ev).1 = some true) :
    dispatch_kbd_event s now g ev =
      ((cmd_process_event s now ev).2.1, (cmd_process_event s now ev).2.2) := by
  simp only [dispatch_kbd_event, h, Option.getD_some, if_true]

lemma kbd_phase_append (l1 l2 : List (Nat × Bool × KeyboardEvent)) :
    ∀ s, kbd_phase s (l1 ++ l2) =
      ((kbd_phase s l1).1 ++ (kbd_phase (kbd_phase s l1).2 l2).1,
       (kbd_phase (kbd_phase s l1).2 l2).2) := by
  induction l1 with
  | nil => intro s; simp [kbd_phase]
  | cons x rest ih =>
    intro s
    simp [kbd_phase, ih, List.append_assoc]

lemma kbd_phase_long (t0 : Nat) (ht0 : t0 ≠ 0) (mid : List (Nat × Bool × KeyboardEvent)) :
    ∀ s : CmdState, s.down_stamp = t0 →
      (∀ x ∈ mid, CMD_MS_HOLD ≤ usub32 x.1 t0) →
      (∀ x ∈ mid, ¬(x.2.2.keycode = CMD_KEY ∧ x.2.2.down = false)) →
      (∀ e ∈ (kbd_phase s mid).1, e.page = 0) ∧
      (kbd_phase s mid).2.down_stamp = t0 ∧
      (kbd_phase s mid).2.saved_ev = s.saved_ev := by
  induction mid with
  | nil => intro s hs _ _; exact ⟨by simp [kbd_phase], hs, rfl⟩
  | cons x rest ih =>
    intro s hs hlate hnotup
    have hstamp : s.down_stamp ≠ 0 := by rw [hs]; exact ht0
    have hlong : ¬ usub32 x.1 s.down_stamp < CMD_MS_HOLD := by
      have h := hlate x (List.mem_cons_self x rest)
      rw [hs]
      omega
    have hstep := cmd_long_step s x.1 x.2.2 hstamp hlong
    have hnot := hnotup x (List.mem_cons_self x rest)
    have hstate : (cmd_process_event s x.1 x.2.2).2.2 =
        (⟨s.saved_ev, s.down_stamp, true⟩ : CmdState) := by
      rw [hstep.2.2, if_neg hnot]
    have hdisp := dispatch_consumed s x.1 x.2.1 x.2.2 hstep.1
    have ihres := ih ⟨s.saved_ev, s.down_stamp, true⟩ hs
      (fun y hy => hlate y (List.mem_cons_of_mem x hy))
      (fun y hy => hnotup y (List.mem_cons_of_mem x hy))
    refine ⟨?_, ?_, ?_⟩
    · intro e he
      simp only [kbd_phase] at he
      rw [hdisp, hstate] at he
      rcases List.mem_append.mp he with h1 | h2
      · exact hstep.2.1 e h1
      · exact ihres.1 e h2
    · simp only [kbd_phase]
      rw [hdisp, hstate]
      exact ihres.2.1
    · simp only [kbd_phase]
      rw [hdisp, hstate]
      exact ihres.2.2

/-- C3: in a long-hold session the arming command-key DOWN is consumed
with nothing delivered to the host; every later event arriving with the
stamp at least CMD_MS_HOLD milliseconds old is consumed by
cmd_process_event; across the session up to and including the matching
command-key UP the host receives only synthesized page-0 events, so
neither the initial command-key DOWN nor any intermediate user event
(all carrying a non-zero HID page) is ever forwarded; and afterwards the
filter is Idle again. -/
theorem c3_long_hold_no_forwarding (s0 : CmdState) (t0 p0 pn tn : Nat) (gn : Bool)
    (mid : List (Nat × Bool × KeyboardEvent))
    (hidle : s0.down_stamp = 0) (hin0 : s0.in_cmd = false)
    (ht0 : t0 ≠ 0) (hp0 : p0 ≠ 0)
    (hlate : ∀ x ∈ mid, CMD_MS_HOLD ≤ usub32 x.1 t0)
    (hlaten : CMD_MS_HOLD ≤ usub32 tn t0)
    (hnotup : ∀ x ∈ mid, ¬(x.2.2.keycode = CMD_KEY ∧ x.2.2.down = false))
    (hpages : ∀ x ∈ mid, x.2.2.page ≠ 0) :
    cmd_process_event s0 t0 ⟨p0, CMD_KEY, true⟩ =
      (some true, [], ⟨⟨p0, CMD_KEY, true⟩, t0, false⟩) ∧
    (∀ (s : CmdState) (now : Nat) (ev : KeyboardEvent),
      s.down_stamp = t0 → CMD_MS_HOLD ≤ usub32 now t0 →
      (cmd_process_event s now ev).1 = some true) ∧
    (∀ e ∈ (kbd_phase ⟨⟨p0, CMD_KEY, true⟩, t0, false⟩
        (mid ++ [(tn, gn, ⟨pn, CMD_KEY, false⟩)])).1, e.page = 0) ∧
    (⟨p0, CMD_KEY, true⟩ : KeyboardEvent) ∉
      (kbd_phase ⟨⟨p0, CMD_KEY, true⟩, t0, false⟩
        (mid ++ [(tn, gn, ⟨pn, CMD_KEY, false⟩)])).1 ∧
    (∀ x ∈ mid, x.2.2 ∉ (kbd_phase ⟨⟨p0, CMD_KEY, true⟩, t0, false⟩
        (mid ++ [(tn, gn, ⟨pn, CMD_KEY, false⟩)])).1) ∧
    (kbd_phase ⟨⟨p0, CMD_KEY, true⟩, t0, false⟩
        (mid ++ [(tn, gn, ⟨pn, CMD_KEY, false⟩)])).2 =
      ⟨⟨p0, CMD_KEY, true⟩, 0, false⟩ := by
  have harm : cmd_process_event s0 t0 ⟨p0, CMD_KEY, true⟩ =
      (some true, [], ⟨⟨p0, CMD_KEY, true⟩, t0, false⟩) := by
    obtain ⟨sv, st, ic⟩ := s0
    simp only [CmdState.down_stamp] at hidle
    simp only [CmdState.in_cmd] at hin0
    subst hidle
    subst hin0
    simp [cmd_process_event, cmd_event_after_hold_check]
  have hmid := kbd_phase_long t0 ht0 mid ⟨⟨p0, CMD_KEY, true⟩, t0, false⟩ rfl hlate hnotup
  have hsplit := kbd_phase_append mid [(tn, gn, ⟨pn, CMD_KEY, false⟩)]
    ⟨⟨p0, CMD_KEY, true⟩, t0, false⟩
  have hstampn : (kbd_phase ⟨⟨p0, CMD_KEY, true⟩, t0, false⟩ mid).2.down_stamp ≠ 0 := by
    rw [hmid.2.1]
    exact ht0
  have hlongn : ¬ usub32 tn
      (kbd_phase ⟨⟨p0, CMD_KEY, true⟩, t0, false⟩ mid).2.down_stamp < CMD_MS_HOLD := by
    rw [hmid.2.1]
    omega
  have hlast := cmd_long_step
    (kbd_phase ⟨⟨p0, CMD_KEY, true⟩, t0, false⟩ mid).2 tn ⟨pn, CMD_KEY, false⟩
    hstampn hlongn
  have hlaststate : (cmd_process_event
      (kbd_phase ⟨⟨p0, CMD_KEY, true⟩, t0, false⟩ mid).2 tn ⟨pn, CMD_KEY, false⟩).2.2 =
      (⟨(kbd_phase ⟨⟨p0, CMD_KEY, true⟩, t0, false⟩ mid).2.saved_ev, 0, false⟩ :
        CmdState) := by
    rw [hlast.2.2, if_pos (by exact ⟨rfl, rfl⟩)]
  have hdispn := dispatch_consumed
    (kbd_phase ⟨⟨p0, CMD_KEY, true⟩, t0, false⟩ mid).2 tn gn ⟨pn, CMD_KEY, false⟩ hlast.1
  have htrace : ∀ e ∈ (kbd_phase ⟨⟨p0, CMD_KEY, true⟩, t0, false⟩
      (mid ++ [(tn, gn, ⟨pn, CMD_KEY, false⟩)])).1, e.page = 0 := by
    intro e he
    rw [hsplit] at he
    rcases List.mem_append.mp he with h1 | h2
    · exact hmid.1 e h1
    · simp only [kbd_phase] at h2
      rw [hdispn] at h2
      rcases List.mem_append.mp h2 with h3 | h4
      · exact hlast.2.1 e h3
      · simp [kbd_phase] at h4
  refine ⟨harm, ?_, htrace, ?_, ?_, ?_⟩
  · intro s now ev hs hl
    have hst : s.down_stamp ≠ 0 := by rw [hs]; exact ht0
    have hlg : ¬ usub32 now s.down_stamp < CMD_MS_HOLD := by rw [hs]; omega
    exact (cmd_long_step s now ev hst hlg).1
  · intro hmem
    exact hp0 (htrace _ hmem)
  · intro x hx hmem
    exact hpages x hx (htrace _ hmem)
  · rw [hsplit]
    simp only [kbd_phase]
    rw [hdispn, hlaststate, hmid.2.2]

/-- C3 witness: the command key goes down at millisecond 100, an A DOWN
arrives at millisecond 700 and the command-key UP at millisecond 900;
nothing but page-0 synthesized events reaches the host and the filter
ends Idle. -/
theorem c3_long_hold_no_forwarding_witness :
    cmd_process_event ⟨⟨0, 0, false⟩, 0, false⟩ 100 ⟨7, CMD_KEY, true⟩ =
      (some true, [], ⟨⟨7, CMD_KEY, true⟩, 100, false⟩) ∧
    (∀ (s : CmdState) (now : Nat) (ev : KeyboardEvent),
      s.down_stamp = 100 → CMD_MS_HOLD ≤ usub32 now 100 →
      (cmd_process_event s now ev).1 = some true) ∧
    (∀ e ∈ (kbd_phase ⟨⟨7, CMD_KEY, true⟩, 100, false⟩
        ([(700, false, ⟨7, 4, true⟩)] ++ [(900, false, ⟨7, CMD_KEY, false⟩)])).1,
      e.page = 0) ∧
    (⟨7, CMD_KEY, true⟩ : KeyboardEvent) ∉
      (kbd_phase ⟨⟨7, CMD_KEY, true⟩, 100, false⟩
        ([(700, false, ⟨7, 4, true⟩)] ++ [(900, false, ⟨7, CMD_KEY, false⟩)])).1 ∧
    (∀ x ∈ [((700 : Nat), false, (⟨7, 4, true⟩ : KeyboardEvent))],
      x.2.2 ∉ (kbd_phase ⟨⟨7, CMD_KEY, true⟩, 100, false⟩
        ([(700, false, ⟨7, 4, true⟩)] ++ [(900, false, ⟨7, CMD_KEY, false⟩)])).1) ∧
    (kbd_phase ⟨⟨7, CMD_KEY, true⟩, 100, false⟩
        ([(700, false, ⟨7, 4, true⟩)] ++ [(900, false, ⟨7, CMD_KEY, false⟩)])).2 =
      ⟨⟨7, CMD_KEY, true⟩, 0, false⟩ :=
  c3_long_hold_no_forwarding ⟨⟨0, 0, false⟩, 0, false⟩ 100 7 7 900 false
    [(700, false, ⟨7, 4, true⟩)] rfl rfl (by decide) (by decide) (by decide)
    (by decide) (by decide) (by decide)

end Babelfish
